import Mathlib

/-!
# Verification of statrs derived distribution adapters

Shallow embedding of `src/distribution/chi_squared.rs` and
`src/distribution/fisher_snedecor.rs` from the statrs crate, together with
proofs settling the frozen claims about them.

Double-precision values are modelled by `FP`: an exact extended-rational
carrier (`NaN`, `+∞`, `-∞`, or a rational) with IEEE-754-like semantics for
the special values (NaN propagation, `∞ - ∞ = NaN`, `∞/∞ = NaN`, `0/0 = NaN`,
comparisons with NaN are false) but exact rational arithmetic in the finite
regime (no rounding, no signed zero).  Every claim settled below is about
control flow, special-value propagation, or values that the source computes
exactly in this model.

Functions the source calls that are not part of the two embedded files —
the crate's `function::beta` module (`beta`, `beta_reg`), the Gamma sampler
`gamma::sample_unchecked`, and the Rust standard-library float intrinsics
(`powf`, `sqrt`, `ln`) — are kept abstract: the embedded definitions are
parametrized over them, and the properties the spec guarantees about them
enter the theorems as explicit hypotheses.
-/

/-- Model of an IEEE-754 double: NaN, the two infinities, or an exact
finite value (a rational; rounding and signed zero are not modelled). -/
inductive FP where
  | nan : FP
  | inf : FP
  | neginf : FP
  | fin : ℚ → FP
deriving DecidableEq, Repr

namespace FP

/-- `f64::is_nan`. -/
def isNaN : FP → Bool
  | nan => true
  | _ => false

/-- `f64::is_infinite` (true for either infinity, false for NaN and finite). -/
def isInfinite : FP → Bool
  | inf => true
  | neginf => true
  | _ => false

/-- IEEE negation. -/
def neg : FP → FP
  | nan => nan
  | inf => neginf
  | neginf => inf
  | fin q => fin (-q)

/-- IEEE addition (exact in the finite regime): NaN propagates and
`∞ + (-∞) = NaN`. -/
def add : FP → FP → FP
  | nan, _ => nan
  | _, nan => nan
  | inf, neginf => nan
  | neginf, inf => nan
  | inf, _ => inf
  | _, inf => inf
  | neginf, _ => neginf
  | _, neginf => neginf
  | fin a, fin b => fin (a + b)

/-- IEEE subtraction, as addition of the negation. -/
def sub (a b : FP) : FP := add a (neg b)

/-- IEEE multiplication (exact in the finite regime): NaN propagates and
`0 * ±∞ = NaN`. -/
def mul : FP → FP → FP
  | nan, _ => nan
  | _, nan => nan
  | inf, inf => inf
  | inf, neginf => neginf
  | neginf, inf => neginf
  | neginf, neginf => inf
  | inf, fin q => if 0 < q then inf else if q < 0 then neginf else nan
  | fin q, inf => if 0 < q then inf else if q < 0 then neginf else nan
  | neginf, fin q => if 0 < q then neginf else if q < 0 then inf else nan
  | fin q, neginf => if 0 < q then neginf else if q < 0 then inf else nan
  | fin a, fin b => fin (a * b)

/-- IEEE division (exact in the finite regime): NaN propagates,
`±∞/±∞ = NaN`, `0/0 = NaN`, a nonzero finite number divided by zero gives a
signed infinity (the model has a single zero, treated as `+0`), and a finite
number divided by an infinity gives zero. -/
def div : FP → FP → FP
  | nan, _ => nan
  | _, nan => nan
  | inf, inf => nan
  | inf, neginf => nan
  | neginf, inf => nan
  | neginf, neginf => nan
  | inf, fin q => if 0 ≤ q then inf else neginf
  | neginf, fin q => if 0 ≤ q then neginf else inf
  | fin _, inf => fin 0
  | fin _, neginf => fin 0
  | fin a, fin b =>
    if b = 0 then (if a = 0 then nan else if 0 < a then inf else neginf)
    else fin (a / b)

/-- Rust `<` on f64: false whenever either operand is NaN. -/
def lt : FP → FP → Bool
  | nan, _ => false
  | _, nan => false
  | neginf, neginf => false
  | neginf, _ => true
  | _, neginf => false
  | inf, _ => false
  | fin _, inf => true
  | fin a, fin b => decide (a < b)

/-- Rust `<=` on f64: false whenever either operand is NaN. -/
def le : FP → FP → Bool
  | nan, _ => false
  | _, nan => false
  | neginf, _ => true
  | _, neginf => false
  | _, inf => true
  | inf, _ => false
  | fin a, fin b => decide (a ≤ b)

/-- Rust `==` on f64: false whenever either operand is NaN (the model has
no signed zero, so structural equality is otherwise correct). -/
def beq : FP → FP → Bool
  | nan, _ => false
  | _, nan => false
  | a, b => decide (a = b)

instance : Neg FP := ⟨FP.neg⟩
instance : Add FP := ⟨FP.add⟩
instance : Sub FP := ⟨FP.sub⟩
instance : Mul FP := ⟨FP.mul⟩
instance : Div FP := ⟨FP.div⟩

end FP

/-- The statrs error type; the two embedded constructors only ever return
`StatsError::BadParams` (the `ArgGt` values appear only in panic messages). -/
inductive StatsError where
  | BadParams : StatsError
deriving DecidableEq, Repr

instance {ε α : Type} [DecidableEq ε] [DecidableEq α] : DecidableEq (Except ε α) :=
  fun a b =>
    match a, b with
    | .ok x, .ok y =>
      if h : x = y then .isTrue (by rw [h])
      else .isFalse (fun hh => h (Except.ok.inj hh))
    | .error x, .error y =>
      if h : x = y then .isTrue (by rw [h])
      else .isFalse (fun hh => h (Except.error.inj hh))
    | .ok _, .error _ => .isFalse (fun hh => Except.noConfusion hh)
    | .error _, .ok _ => .isFalse (fun hh => Except.noConfusion hh)

/-- Rust `Result::is_ok` for the statrs `Result` type. -/
def resultOk {α : Type} : Except StatsError α → Bool
  | .ok _ => true
  | .error _ => false

/-- Rust `Result::is_err` for the statrs `Result` type. -/
def resultErr {α : Type} : Except StatsError α → Bool
  | .ok _ => false
  | .error _ => true

/-- Rust `Result::ok` (success payload as an `Option`). -/
def resultToOption {α : Type} : Except StatsError α → Option α
  | .ok a => some a
  | .error _ => none

/-- The abstract special-function / std-float environment.  `powf`, `sqrt`
and `ln` are the Rust standard-library f64 intrinsics; `beta` and `betaReg`
are `function::beta::beta` and `function::beta::beta_reg` from the crate's
special-function module (whose source file is not part of the embedded
sources).  The embedded distribution code is parametrized over this record;
properties the spec states about these functions appear as hypotheses of
the theorems that need them. -/
structure Env where
  powf : FP → FP → FP
  sqrt : FP → FP
  ln : FP → FP
  beta : FP → FP → FP
  betaReg : FP → FP → FP → FP

/-- Modelled from the spec: the crate's `Gamma` distribution struct
(`src/distribution/gamma.rs` is not among the embedded sources; §3 and §4.2
of the spec describe it as an immutable value holding a shape and a rate). -/
structure Gamma where
  shape : FP
  rate : FP
deriving DecidableEq, Repr

/-- Modelled from the spec: `Gamma::new(shape, rate)` validation — per
§4.2 the Gamma family requires `shape > 0, rate > 0`, and per §6/§7 a
constructor fails with a validation error exactly when a parameter is NaN
or outside the family's required range. -/
def Gamma.new (shape rate : FP) : Except StatsError Gamma :=
  if shape.isNaN || rate.isNaN then .error .BadParams
  else if FP.le shape (FP.fin 0) || FP.le rate (FP.fin 0) then .error .BadParams
  else .ok ⟨shape, rate⟩

/-- `ChiSquared` from `src/distribution/chi_squared.rs`: degrees of freedom
plus the owned reparameterized `Gamma`. -/
structure ChiSquared where
  freedom : FP
  g : Gamma
deriving DecidableEq, Repr

/-- `ChiSquared::new`: delegates validation to
`Gamma::new(freedom / 2.0, 0.5)` and wraps the result. -/
def ChiSquared.new (freedom : FP) : Except StatsError ChiSquared :=
  (Gamma.new (freedom / FP.fin 2) (FP.fin (1/2))).map (fun g => ⟨freedom, g⟩)

/-- `ChiSquared::median`: two-regime split on the degrees of freedom
(`self.freedom < 1.0` takes the small-k Taylor expansion, otherwise the
large-sample approximation `k - 2/3`). -/
def ChiSquared.median (c : ChiSquared) : FP :=
  if FP.lt c.freedom (FP.fin 1) then
    c.freedom - FP.fin 2 / FP.fin 3 + FP.fin 12 / (FP.fin 81 * c.freedom) -
      FP.fin 8 / (FP.fin 729 * c.freedom * c.freedom)
  else
    c.freedom - FP.fin 2 / FP.fin 3

/-- `FisherSnedecor` from `src/distribution/fisher_snedecor.rs`: the two
degrees of freedom. -/
structure FisherSnedecor where
  freedom_1 : FP
  freedom_2 : FP
deriving DecidableEq, Repr

namespace FisherSnedecor

/-- `FisherSnedecor::new`: errors when either parameter is NaN, then when
either parameter is `<= 0.0`. -/
def new (freedom_1 freedom_2 : FP) : Except StatsError FisherSnedecor :=
  if freedom_1.isNaN || freedom_2.isNaN then .error .BadParams
  else if FP.le freedom_1 (FP.fin 0) || FP.le freedom_2 (FP.fin 0) then
    .error .BadParams
  else .ok ⟨freedom_1, freedom_2⟩

/-- A constructed (`new`-accepted) Fisher–Snedecor value: both degrees of
freedom strictly positive (a NaN parameter makes `FP.lt` false, so NaN is
excluded automatically). -/
def isValid (d : FisherSnedecor) : Bool :=
  FP.lt (FP.fin 0) d.freedom_1 && FP.lt (FP.fin 0) d.freedom_2

/-- `FisherSnedecor::sample`, parametrized over the crate's
`gamma::sample_unchecked` (not among the embedded sources) and over the
caller-supplied randomness source, modelled as a state `r : S` threaded
through the two draws: `sg r shape rate` returns the variate and the
advanced source.  Mirrors
`(sample_unchecked(r, d1/2, 0.5) * d2) / (sample_unchecked(r, d2/2, 0.5) * d1)`
with the numerator's draw evaluated first. -/
def sample {S : Type} (sg : S → FP → FP → FP × S) (d : FisherSnedecor)
    (r : S) : FP × S :=
  let p1 := sg r (d.freedom_1 / FP.fin 2) (FP.fin (1/2))
  let p2 := sg p1.2 (d.freedom_2 / FP.fin 2) (FP.fin (1/2))
  ((p1.1 * d.freedom_2) / (p2.1 * d.freedom_1), p2.2)

/-- `FisherSnedecor::cdf`: NaN when `freedom_1 == f64::INFINITY`,
`freedom_2 == f64::INFINITY`, or `x.is_infinite()`; otherwise the
regularized incomplete beta at the transformed argument. -/
def cdf (env : Env) (d : FisherSnedecor) (x : FP) : FP :=
  if FP.beq d.freedom_1 FP.inf || FP.beq d.freedom_2 FP.inf || x.isInfinite then
    FP.nan
  else
    env.betaReg (d.freedom_1 / FP.fin 2) (d.freedom_2 / FP.fin 2)
      (d.freedom_1 * x / (d.freedom_1 * x + d.freedom_2))

/-- `FisherSnedecor::min`. -/
def min (_ : FisherSnedecor) : FP := FP.fin 0

/-- `FisherSnedecor::max`. -/
def max (_ : FisherSnedecor) : FP := FP.inf

/-- `FisherSnedecor::mean`: `assert!(freedom_2 > 2.0)` then
`d2 / (d2 - 2)`; `none` models the panic. -/
def mean (d : FisherSnedecor) : Option FP :=
  if FP.lt (FP.fin 2) d.freedom_2 then
    some (d.freedom_2 / (d.freedom_2 - FP.fin 2))
  else none

/-- `FisherSnedecor::variance`: `assert!(freedom_2 > 4.0)` then the closed
form; `none` models the panic. -/
def variance (d : FisherSnedecor) : Option FP :=
  if FP.lt (FP.fin 4) d.freedom_2 then
    some ((FP.fin 2 * d.freedom_2 * d.freedom_2 *
        (d.freedom_1 + d.freedom_2 - FP.fin 2)) /
      (d.freedom_1 * (d.freedom_2 - FP.fin 2) * (d.freedom_2 - FP.fin 2) *
        (d.freedom_2 - FP.fin 4)))
  else none

/-- `FisherSnedecor::std_dev`: `self.variance().sqrt()` (so it panics
exactly when `variance` does); `sqrt` is the std intrinsic from `env`. -/
def stdDev (env : Env) (d : FisherSnedecor) : Option FP :=
  (d.variance).map env.sqrt

/-- `FisherSnedecor::skewness`: `assert!(freedom_2 > 6.0)` then the closed
form; `none` models the panic. -/
def skewness (env : Env) (d : FisherSnedecor) : Option FP :=
  if FP.lt (FP.fin 6) d.freedom_2 then
    some (((FP.fin 2 * d.freedom_1 + d.freedom_2 - FP.fin 2) *
        env.sqrt (FP.fin 8 * (d.freedom_2 - FP.fin 4))) /
      ((d.freedom_2 - FP.fin 6) *
        env.sqrt (d.freedom_1 * (d.freedom_1 + d.freedom_2 - FP.fin 2))))
  else none

/-- `FisherSnedecor::mode`: `assert!(freedom_1 > 2.0)` then
`(d2 * (d1 - 2)) / (d1 * (d2 + 2))`; `none` models the panic. -/
def mode (d : FisherSnedecor) : Option FP :=
  if FP.lt (FP.fin 2) d.freedom_1 then
    some ((d.freedom_2 * (d.freedom_1 - FP.fin 2)) /
      (d.freedom_1 * (d.freedom_2 + FP.fin 2)))
  else none

/-- `FisherSnedecor::pdf`:
`((d1*x)^d1 * d2^d2 / (d1*x + d2)^(d1+d2)).sqrt() / (x * beta(d1/2, d2/2))`. -/
def pdf (env : Env) (d : FisherSnedecor) (x : FP) : FP :=
  env.sqrt (env.powf (d.freedom_1 * x) d.freedom_1 *
      env.powf d.freedom_2 d.freedom_2 /
      env.powf (d.freedom_1 * x + d.freedom_2) (d.freedom_1 + d.freedom_2)) /
    (x * env.beta (d.freedom_1 / FP.fin 2) (d.freedom_2 / FP.fin 2))

/-- `FisherSnedecor::ln_pdf`: `self.pdf(x).ln()`. -/
def lnPdf (env : Env) (d : FisherSnedecor) (x : FP) : FP :=
  env.ln (d.pdf env x)

end FisherSnedecor

/-- A concrete environment used by witness theorems: its only purpose is to
satisfy, at the specific points the witnesses evaluate, the hypotheses that
the spec states about the abstract special functions. -/
def testEnv : Env where
  powf := fun x _ => if x = FP.fin 0 then FP.fin 0 else FP.fin 1
  sqrt := fun x => x
  ln := fun x => x
  beta := fun _ _ => FP.fin 1
  betaReg := fun _ _ x => x

/-- The Chi-squared value produced by `ChiSquared::new(0.5)`. -/
def chiHalf : ChiSquared := ⟨FP.fin (1/2), ⟨FP.fin (1/4), FP.fin (1/2)⟩⟩

/-- The Chi-squared value produced by `ChiSquared::new(3.0)`. -/
def chiThree : ChiSquared := ⟨FP.fin 3, ⟨FP.fin (3/2), FP.fin (1/2)⟩⟩

section
attribute [local semireducible] Rat.add Rat.mul Rat.sub Rat.inv

theorem FP.hadd_eq (a b : FP) : a + b = FP.add a b := rfl

theorem FP.hsub_eq (a b : FP) : a - b = FP.sub a b := rfl

theorem FP.hmul_eq (a b : FP) : a * b = FP.mul a b := rfl

theorem FP.hdiv_eq (a b : FP) : a / b = FP.div a b := rfl

theorem FP.lt_eq_false_of_le {x y : FP} (h : FP.le x y = true) :
    FP.lt y x = false := by
  cases x <;> cases y <;> simp_all [FP.le, FP.lt, not_lt]

theorem FP.lt_eq_false_iff_le {x y : FP} (hx : x.isNaN = false)
    (hy : y.isNaN = false) : FP.lt x y = false ↔ FP.le y x = true := by
  cases x <;> cases y <;> simp_all [FP.le, FP.lt, FP.isNaN, not_lt]

theorem FP.isNaN_eq_false_of_pos {x : FP} (h : FP.lt (FP.fin 0) x = true) :
    x.isNaN = false := by
  cases x <;> simp_all [FP.lt, FP.isNaN]

theorem FP.pos_cases {x : FP} (h : FP.lt (FP.fin 0) x = true) :
    x = FP.inf ∨ ∃ q : ℚ, 0 < q ∧ x = FP.fin q := by
  cases x with
  | nan => simp [FP.lt] at h
  | inf => exact Or.inl rfl
  | neginf => simp [FP.lt] at h
  | fin q => exact Or.inr ⟨q, by simpa [FP.lt] using h, rfl⟩

theorem FisherSnedecor.isValid_iff {d : FisherSnedecor} :
    d.isValid = true ↔
      (FP.lt (FP.fin 0) d.freedom_1 = true ∧
        FP.lt (FP.fin 0) d.freedom_2 = true) := by
  simp [FisherSnedecor.isValid]

/-- C1: `ChiSquared::median` is a two-regime split on the degrees of
freedom `k`: for `k < 1` it returns
`k − 2/3 + 12/(81·k) − 8/(729·k²)`, and for `k ≥ 1` it returns `k − 2/3`
exactly; in particular the median of `ChiSquared(3.0)` is `3.0 − 2/3`
exactly (the rational `7/3` in this exact model) and the median of
`ChiSquared(0.5)` is `125/1458`, within `1e-16` of
`0.08573388203017832647`. -/
theorem chiSquared_median_two_regime :
    (∀ c : ChiSquared,
      (FP.lt c.freedom (FP.fin 1) = true →
        c.median = c.freedom - FP.fin 2 / FP.fin 3 +
          FP.fin 12 / (FP.fin 81 * c.freedom) -
          FP.fin 8 / (FP.fin 729 * c.freedom * c.freedom)) ∧
      (FP.le (FP.fin 1) c.freedom = true →
        c.median = c.freedom - FP.fin 2 / FP.fin 3)) ∧
    ChiSquared.new (FP.fin 3) = .ok chiThree ∧
    chiThree.median = FP.fin 3 - FP.fin 2 / FP.fin 3 ∧
    chiThree.median = FP.fin (7/3) ∧
    ChiSquared.new (FP.fin (1/2)) = .ok chiHalf ∧
    chiHalf.median = FP.fin (125/1458) ∧
    |(125/1458 : ℚ) - 8573388203017832647/100000000000000000000| ≤
      1/10000000000000000 := by
  refine ⟨fun c => ⟨fun h => ?_, fun h => ?_⟩, by decide, by decide, by decide,
    by decide, by decide, by decide⟩
  · simp [ChiSquared.median, h]
  · simp [ChiSquared.median, FP.lt_eq_false_of_le h]

theorem chiSquared_median_two_regime_witness :
    FP.lt chiHalf.freedom (FP.fin 1) = true ∧
    chiHalf.median = chiHalf.freedom - FP.fin 2 / FP.fin 3 +
      FP.fin 12 / (FP.fin 81 * chiHalf.freedom) -
      FP.fin 8 / (FP.fin 729 * chiHalf.freedom * chiHalf.freedom) :=
  ⟨by decide, (chiSquared_median_two_regime.1 chiHalf).1 (by decide)⟩

/-- C4: `FisherSnedecor::new(freedom_1, freedom_2)` errors exactly when a
parameter is NaN or `<= 0`; infinite positive parameters are accepted; in
particular `new(0.0, 0.0)` fails and `new(NaN, y)` fails for every `y`. -/
theorem fisherSnedecor_new_err_iff :
    (∀ f1 f2 : FP,
      resultErr (FisherSnedecor.new f1 f2) = true ↔
        (f1.isNaN = true ∨ f2.isNaN = true ∨ FP.le f1 (FP.fin 0) = true ∨
          FP.le f2 (FP.fin 0) = true)) ∧
    resultErr (FisherSnedecor.new (FP.fin 0) (FP.fin 0)) = true ∧
    (∀ y : FP, resultErr (FisherSnedecor.new FP.nan y) = true) ∧
    resultOk (FisherSnedecor.new FP.inf (FP.fin 1)) = true ∧
    resultOk (FisherSnedecor.new (FP.fin 1) FP.inf) = true ∧
    resultOk (FisherSnedecor.new FP.inf FP.inf) = true := by
  refine ⟨fun f1 f2 => ?_, by decide, fun y => rfl, by decide, by decide,
    by decide⟩
  by_cases h1 : f1.isNaN = true <;> by_cases h2 : f2.isNaN = true <;>
    by_cases h3 : FP.le f1 (FP.fin 0) = true <;>
    by_cases h4 : FP.le f2 (FP.fin 0) = true <;>
    simp [FisherSnedecor.new, resultErr, h1, h2, h3, h4]

/-- C5: `FisherSnedecor::sample` draws `g1 ~ Gamma(freedom_1/2, rate 1/2)`
first from the caller-supplied source, then `g2 ~ Gamma(freedom_2/2, rate
1/2)` from the advanced source, and returns `(g1·freedom_2)/(g2·freedom_1)`
(independence of the draws is modelled by the state threading: the second
draw consumes exactly the source state left by the first). -/
theorem fisherSnedecor_sample_gamma_ratio {S : Type}
    (sg : S → FP → FP → FP × S) (d : FisherSnedecor) (r : S) :
    FisherSnedecor.sample sg d r =
      ((sg r (d.freedom_1 / FP.fin 2) (FP.fin (1/2))).1 * d.freedom_2 /
          ((sg (sg r (d.freedom_1 / FP.fin 2) (FP.fin (1/2))).2
              (d.freedom_2 / FP.fin 2) (FP.fin (1/2))).1 * d.freedom_1),
        (sg (sg r (d.freedom_1 / FP.fin 2) (FP.fin (1/2))).2
            (d.freedom_2 / FP.fin 2) (FP.fin (1/2))).2) := rfl

/-- C8: `ChiSquared::new(k)` succeeds exactly when `k` is not NaN and
`k > 0` (it delegates validation to `Gamma::new(k/2, 0.5)`), and on success
the value stores the `Gamma` with shape `k/2` and rate `1/2`; in particular
`new(0.0)` fails. -/
theorem chiSquared_new_iff :
    (∀ k : FP,
      (resultOk (ChiSquared.new k) = true ↔
        (k.isNaN = false ∧ FP.lt (FP.fin 0) k = true)) ∧
      resultToOption (ChiSquared.new k) =
        (if k.isNaN = false ∧ FP.lt (FP.fin 0) k = true then
          some ⟨k, ⟨k / FP.fin 2, FP.fin (1/2)⟩⟩
        else none)) ∧
    resultErr (ChiSquared.new (FP.fin 0)) = true := by
  refine ⟨fun k => ?_, by decide⟩
  cases k with
  | nan => exact ⟨by decide, by decide⟩
  | inf => exact ⟨by decide, by decide⟩
  | neginf => exact ⟨by decide, by decide⟩
  | fin q =>
    have hdiv : FP.fin q / FP.fin 2 = FP.fin (q / 2) := by
      rw [FP.hdiv_eq]
      norm_num [FP.div]
    have hiff : (q / 2 ≤ 0) ↔ ¬(0 < q) := by
      rw [not_lt]
      constructor <;> intro h <;> linarith
    have hnew : ChiSquared.new (FP.fin q) =
        (if 0 < q then
          Except.ok ⟨FP.fin q, ⟨FP.fin q / FP.fin 2, FP.fin (1/2)⟩⟩
        else Except.error StatsError.BadParams) := by
      rw [ChiSquared.new, Gamma.new, hdiv]
      by_cases h : 0 < q <;>
        norm_num [FP.isNaN, FP.le, hiff, h, Except.map]
    by_cases h : 0 < q <;>
      simp [hnew, resultOk, resultToOption, FP.lt, FP.isNaN, h]

/-- C9: for every valid `FisherSnedecor` and every argument,
`ln_pdf(x)` is the natural logarithm of `pdf(x)` — the log-density is
obtained by applying `ln` to the ordinary-domain density. -/
theorem fisherSnedecor_ln_pdf_via_pdf (env : Env) (d : FisherSnedecor)
    (x : FP) (_h : d.isValid = true) :
    FisherSnedecor.lnPdf env d x = env.ln (FisherSnedecor.pdf env d x) := rfl

theorem FP.le_eq_false_of_lt {x y : FP} (h : FP.lt x y = true) :
    FP.le y x = false := by
  cases x <;> cases y <;> simp_all [FP.le, FP.lt, not_le]

/-- C2: for every valid Fisher–Snedecor distribution and every `x`,
`cdf(x)` returns NaN when `freedom_1`, `freedom_2` or `x` is infinite, and
otherwise returns `beta_reg(d1/2, d2/2, d1·x/(d1·x + d2))`. -/
theorem fisherSnedecor_cdf_spec (env : Env) (d : FisherSnedecor) (x : FP)
    (h : d.isValid = true) :
    FisherSnedecor.cdf env d x =
      (if d.freedom_1.isInfinite || d.freedom_2.isInfinite || x.isInfinite
       then FP.nan
       else env.betaReg (d.freedom_1 / FP.fin 2) (d.freedom_2 / FP.fin 2)
         (d.freedom_1 * x / (d.freedom_1 * x + d.freedom_2))) := by
  obtain ⟨h1, h2⟩ := FisherSnedecor.isValid_iff.1 h
  have e1 : FP.beq d.freedom_1 FP.inf = d.freedom_1.isInfinite := by
    rcases FP.pos_cases h1 with hc | ⟨q, _, hc⟩ <;> rw [hc] <;> rfl
  have e2 : FP.beq d.freedom_2 FP.inf = d.freedom_2.isInfinite := by
    rcases FP.pos_cases h2 with hc | ⟨q, _, hc⟩ <;> rw [hc] <;> rfl
  simp only [FisherSnedecor.cdf, e1, e2]

theorem fisherSnedecor_cdf_spec_witness :
    FisherSnedecor.isValid ⟨FP.fin 1, FP.fin 1⟩ = true ∧
    FisherSnedecor.cdf testEnv ⟨FP.fin 1, FP.fin 1⟩ (FP.fin 1) =
      (if (FP.fin 1).isInfinite || (FP.fin 1).isInfinite ||
          (FP.fin 1).isInfinite then FP.nan
       else testEnv.betaReg (FP.fin 1 / FP.fin 2) (FP.fin 1 / FP.fin 2)
         (FP.fin 1 * FP.fin 1 / (FP.fin 1 * FP.fin 1 + FP.fin 1))) :=
  ⟨by decide,
    fisherSnedecor_cdf_spec testEnv ⟨FP.fin 1, FP.fin 1⟩ (FP.fin 1)
      (by decide)⟩

/-- C3: each Fisher–Snedecor moment panics (modelled by `none`) exactly
when its domain restriction is violated: `mean` iff `freedom_2 ≤ 2`,
`variance` and `std_dev` iff `freedom_2 ≤ 4`, `skewness` iff
`freedom_2 ≤ 6`, `mode` iff `freedom_1 ≤ 2`; when the restriction holds
the call returns a value. -/
theorem fisherSnedecor_moment_panic_iff (env : Env) (d : FisherSnedecor)
    (h : d.isValid = true) :
    (d.mean = none ↔ FP.le d.freedom_2 (FP.fin 2) = true) ∧
    (d.variance = none ↔ FP.le d.freedom_2 (FP.fin 4) = true) ∧
    (FisherSnedecor.stdDev env d = none ↔
      FP.le d.freedom_2 (FP.fin 4) = true) ∧
    (FisherSnedecor.skewness env d = none ↔
      FP.le d.freedom_2 (FP.fin 6) = true) ∧
    (d.mode = none ↔ FP.le d.freedom_1 (FP.fin 2) = true) := by
  obtain ⟨h1, h2⟩ := FisherSnedecor.isValid_iff.1 h
  have n1 := FP.isNaN_eq_false_of_pos h1
  have n2 := FP.isNaN_eq_false_of_pos h2
  have key : ∀ (c : ℚ) (x : FP), x.isNaN = false → ∀ v : FP,
      ((if FP.lt (FP.fin c) x then some v else none) = none ↔
        FP.le x (FP.fin c) = true) := by
    intro c x hx v
    by_cases hlt : FP.lt (FP.fin c) x = true
    · simp [hlt, FP.le_eq_false_of_lt hlt]
    · rw [Bool.not_eq_true] at hlt
      simp [hlt, (@FP.lt_eq_false_iff_le (FP.fin c) x rfl hx).1 hlt]
  have hvar : (d.variance = none ↔ FP.le d.freedom_2 (FP.fin 4) = true) :=
    key 4 d.freedom_2 n2 _
  refine ⟨key 2 d.freedom_2 n2 _, hvar, ?_, key 6 d.freedom_2 n2 _,
    key 2 d.freedom_1 n1 _⟩
  rw [FisherSnedecor.stdDev, Option.map_eq_none']
  exact hvar

theorem fisherSnedecor_moment_panic_iff_witness :
    FisherSnedecor.isValid ⟨FP.fin 3, FP.fin 3⟩ = true ∧
    (FisherSnedecor.mean ⟨FP.fin 3, FP.fin 3⟩ = none ↔
      FP.le (FP.fin 3) (FP.fin 2) = true) ∧
    FisherSnedecor.mean ⟨FP.fin 3, FP.fin 3⟩ = some (FP.fin 3) ∧
    (FisherSnedecor.mode ⟨FP.fin 3, FP.fin 3⟩ = none ↔
      FP.le (FP.fin 3) (FP.fin 2) = true) :=
  ⟨by decide,
    (fisherSnedecor_moment_panic_iff testEnv ⟨FP.fin 3, FP.fin 3⟩
      (by decide)).1,
    by decide,
    (fisherSnedecor_moment_panic_iff testEnv ⟨FP.fin 3, FP.fin 3⟩
      (by decide)).2.2.2.2⟩

/-- C7: for every valid Fisher–Snedecor whose relevant domain restriction
holds but with an infinite degree of freedom, the moment call returns NaN
as a normal value (`some FP.nan`) rather than panicking: `mean` with
`freedom_2 = +∞`, `variance` with either parameter `+∞`, and `mode` with
either parameter `+∞`. -/
theorem fisherSnedecor_moments_inf_nan (d : FisherSnedecor)
    (h : d.isValid = true) :
    (d.freedom_2 = FP.inf → d.mean = some FP.nan) ∧
    ((d.freedom_1 = FP.inf ∨ d.freedom_2 = FP.inf) →
      FP.lt (FP.fin 4) d.freedom_2 = true → d.variance = some FP.nan) ∧
    ((d.freedom_1 = FP.inf ∨ d.freedom_2 = FP.inf) →
      FP.lt (FP.fin 2) d.freedom_1 = true → d.mode = some FP.nan) := by
  obtain ⟨f1, f2⟩ := d
  obtain ⟨h1, h2⟩ := FisherSnedecor.isValid_iff.1 h
  simp only at h1 h2
  refine ⟨fun hinf => ?_, fun hcase h4 => ?_, fun hcase hm => ?_⟩
  · subst hinf; rfl
  · rcases hcase with hc | hc
    · subst hc
      rcases FP.pos_cases h2 with hc2 | ⟨q, _, hc2⟩
      · subst hc2; decide
      · subst hc2
        have hq : (4:ℚ) < q := by simpa [FP.lt] using h4
        have c1 : (0:ℚ) < 2 * q * q := by nlinarith
        have c2 : (0:ℚ) < q + -2 := by linarith
        have c3 : (0:ℚ) < q + -4 := by linarith
        simp [FisherSnedecor.variance, FP.lt, FP.hmul_eq, FP.hadd_eq,
          FP.hsub_eq, FP.hdiv_eq, FP.mul, FP.add, FP.sub, FP.neg, FP.div,
          hq, c1, c2, c3]
    · subst hc
      rcases FP.pos_cases h1 with hc1 | ⟨p, hp, hc1⟩
      · subst hc1; decide
      · subst hc1
        simp [FisherSnedecor.variance, FP.lt, FP.hmul_eq, FP.hadd_eq,
          FP.hsub_eq, FP.hdiv_eq, FP.mul, FP.add, FP.sub, FP.neg, FP.div,
          hp, show (0:ℚ) < 2 by norm_num]
  · rcases hcase with hc | hc
    · subst hc
      rcases FP.pos_cases h2 with hc2 | ⟨q, hq, hc2⟩
      · subst hc2; decide
      · subst hc2
        have c1 : (0:ℚ) < q + 2 := by linarith
        simp [FisherSnedecor.mode, FP.lt, FP.hmul_eq, FP.hadd_eq,
          FP.hsub_eq, FP.hdiv_eq, FP.mul, FP.add, FP.sub, FP.neg, FP.div,
          hq, c1]
    · subst hc
      rcases FP.pos_cases h1 with hc1 | ⟨p, hp, hc1⟩
      · subst hc1; decide
      · subst hc1
        have hp2 : (2:ℚ) < p := by simpa [FP.lt] using hm
        have c1 : (0:ℚ) < p + -2 := by linarith
        simp [FisherSnedecor.mode, FP.lt, FP.hmul_eq, FP.hadd_eq,
          FP.hsub_eq, FP.hdiv_eq, FP.mul, FP.add, FP.sub, FP.neg, FP.div,
          hp, hp2, c1]

theorem fisherSnedecor_moments_inf_nan_witness :
    FisherSnedecor.isValid ⟨FP.inf, FP.inf⟩ = true ∧
    FisherSnedecor.mean ⟨FP.inf, FP.inf⟩ = some FP.nan ∧
    FisherSnedecor.variance ⟨FP.inf, FP.inf⟩ = some FP.nan ∧
    FisherSnedecor.mode ⟨FP.inf, FP.inf⟩ = some FP.nan :=
  ⟨by decide,
    (fisherSnedecor_moments_inf_nan ⟨FP.inf, FP.inf⟩ (by decide)).1 rfl,
    (fisherSnedecor_moments_inf_nan ⟨FP.inf, FP.inf⟩ (by decide)).2.1
      (Or.inl rfl) (by decide),
    (fisherSnedecor_moments_inf_nan ⟨FP.inf, FP.inf⟩ (by decide)).2.2
      (Or.inl rfl) (by decide)⟩

/-- C10: for every Fisher–Snedecor with finite positive parameters,
`pdf(0.0)` evaluates to NaN (the expression reduces to `0/0`) even though
`0.0` is exactly the value `min()` returns as the support's lower bound,
and consequently `ln_pdf(0.0)` is NaN too.  The behaviour of the std
float intrinsics at the points reached (`0^d1 = 0` for `d1 > 0`, `d2^d2`
and `(d2)^(d1+d2)` finite positive, `sqrt(0) = 0`, `ln(NaN) = NaN`) enters
as hypotheses. -/
theorem fisherSnedecor_pdf_zero_nan (env : Env) (a b : ℚ)
    (_ha : 0 < a) (_hb : 0 < b)
    (hpow0 : env.powf (FP.fin 0) (FP.fin a) = FP.fin 0)
    (hpow2 : ∃ p : ℚ, 0 < p ∧ env.powf (FP.fin b) (FP.fin b) = FP.fin p)
    (hpow3 : ∃ p : ℚ, 0 < p ∧
      env.powf (FP.fin b) (FP.fin (a + b)) = FP.fin p)
    (hsq0 : env.sqrt (FP.fin 0) = FP.fin 0)
    (hlnn : env.ln FP.nan = FP.nan) :
    FisherSnedecor.pdf env ⟨FP.fin a, FP.fin b⟩ (FP.fin 0) = FP.nan ∧
    FisherSnedecor.min ⟨FP.fin a, FP.fin b⟩ = FP.fin 0 ∧
    FisherSnedecor.lnPdf env ⟨FP.fin a, FP.fin b⟩ (FP.fin 0) = FP.nan := by
  obtain ⟨p2, hp2, e2⟩ := hpow2
  obtain ⟨p3, hp3, e3⟩ := hpow3
  have hbase : FP.fin a * FP.fin 0 = FP.fin 0 := by
    rw [FP.hmul_eq]
    simp [FP.mul]
  have hab : FP.fin a + FP.fin b = FP.fin (a + b) := rfl
  have hzb : FP.fin 0 + FP.fin b = FP.fin b := by
    rw [FP.hadd_eq]
    simp [FP.add]
  have hpdf : FisherSnedecor.pdf env ⟨FP.fin a, FP.fin b⟩ (FP.fin 0) =
      FP.nan := by
    rw [FisherSnedecor.pdf]
    simp only [hbase, hzb, hab]
    rw [hpow0, e2, e3]
    have hnum : FP.fin 0 * FP.fin p2 / FP.fin p3 = FP.fin 0 := by
      rw [FP.hmul_eq, FP.hdiv_eq]
      simp [FP.mul, FP.div, ne_of_gt hp3]
    rw [hnum, hsq0]
    rcases env.beta (FP.fin a / FP.fin 2) (FP.fin b / FP.fin 2) with
      _ | _ | _ | c <;>
      simp [FP.hmul_eq, FP.hdiv_eq, FP.mul, FP.div]
  exact ⟨hpdf, rfl, by rw [FisherSnedecor.lnPdf, hpdf, hlnn]⟩

theorem fisherSnedecor_pdf_zero_nan_witness :
    (0:ℚ) < 1 ∧ testEnv.powf (FP.fin 0) (FP.fin 1) = FP.fin 0 ∧
    FisherSnedecor.pdf testEnv ⟨FP.fin 1, FP.fin 1⟩ (FP.fin 0) = FP.nan ∧
    FisherSnedecor.min ⟨FP.fin 1, FP.fin 1⟩ = FP.fin 0 ∧
    FisherSnedecor.lnPdf testEnv ⟨FP.fin 1, FP.fin 1⟩ (FP.fin 0) = FP.nan :=
  ⟨by decide, by decide,
    (fisherSnedecor_pdf_zero_nan testEnv 1 1 (by decide) (by decide)
      (by decide) ⟨1, by decide, by decide⟩ ⟨1, by decide, by decide⟩
      (by decide) (by decide)).1,
    (fisherSnedecor_pdf_zero_nan testEnv 1 1 (by decide) (by decide)
      (by decide) ⟨1, by decide, by decide⟩ ⟨1, by decide, by decide⟩
      (by decide) (by decide)).2.1,
    (fisherSnedecor_pdf_zero_nan testEnv 1 1 (by decide) (by decide)
      (by decide) ⟨1, by decide, by decide⟩ ⟨1, by decide, by decide⟩
      (by decide) (by decide)).2.2⟩

/-- C6 counterexample: the claim "cdf(x1) ≤ cdf(x2) whenever x1 < x2, and
cdf returns 1 (or the limit) at the supremum" fails on the code for valid
distributions: `FisherSnedecor(∞, 1)` is valid (constructible) yet
`cdf(1.0) = NaN` and `cdf(2.0) = NaN`, so `cdf(1.0) <= cdf(2.0)` is false
in f64; likewise for `FisherSnedecor(1, 1)` the supremum is `max() = +∞`
and `cdf(+∞) = NaN`, not 1.  On both failing inputs the NaN branch fires
before `beta_reg` is ever consulted, so the concrete `testEnv` instantiation
is immaterial. -/
theorem fisherSnedecor_cdf_monotone_cex :
    FisherSnedecor.isValid ⟨FP.inf, FP.fin 1⟩ = true ∧
    FP.lt (FP.fin 1) (FP.fin 2) = true ∧
    FisherSnedecor.cdf testEnv ⟨FP.inf, FP.fin 1⟩ (FP.fin 1) = FP.nan ∧
    FP.le (FisherSnedecor.cdf testEnv ⟨FP.inf, FP.fin 1⟩ (FP.fin 1))
      (FisherSnedecor.cdf testEnv ⟨FP.inf, FP.fin 1⟩ (FP.fin 2)) = false ∧
    FisherSnedecor.isValid ⟨FP.fin 1, FP.fin 1⟩ = true ∧
    FisherSnedecor.cdf testEnv ⟨FP.fin 1, FP.fin 1⟩
      (FisherSnedecor.max ⟨FP.fin 1, FP.fin 1⟩) = FP.nan := by
  decide

/-- C6 (amended): for every Fisher–Snedecor with finite positive
parameters and finite arguments `0 ≤ x1 < x2`, `cdf(x1) ≤ cdf(x2)`, and
the CDF returns 0 at the support's infimum `min() = 0`; the spec's
properties of `beta_reg` (monotone on [0, 1], exact 0 at 0) enter as
hypotheses on the abstract environment. -/
theorem fisherSnedecor_cdf_monotone_amended (env : Env)
    (hmono : ∀ p q x y : FP, FP.le (FP.fin 0) x = true →
      FP.le x y = true → FP.le y (FP.fin 1) = true →
      FP.le (env.betaReg p q x) (env.betaReg p q y) = true)
    (hzero : ∀ p q : FP, env.betaReg p q (FP.fin 0) = FP.fin 0)
    (a b x1 x2 : ℚ) (ha : 0 < a) (hb : 0 < b) (hx1 : 0 ≤ x1)
    (hx : x1 < x2) :
    FP.le (FisherSnedecor.cdf env ⟨FP.fin a, FP.fin b⟩ (FP.fin x1))
      (FisherSnedecor.cdf env ⟨FP.fin a, FP.fin b⟩ (FP.fin x2)) = true ∧
    FisherSnedecor.cdf env ⟨FP.fin a, FP.fin b⟩
      (FisherSnedecor.min ⟨FP.fin a, FP.fin b⟩) = FP.fin 0 := by
  have hx2 : 0 ≤ x2 := hx1.trans hx.le
  have d1 : 0 < a * x1 + b := by
    have := mul_nonneg ha.le hx1
    linarith
  have d2 : 0 < a * x2 + b := by
    have := mul_nonneg ha.le hx2
    linarith
  have d0 : 0 < a * 0 + b := by
    rw [mul_zero, zero_add]
    exact hb
  have hc : ∀ x : ℚ, 0 < a * x + b →
      FisherSnedecor.cdf env ⟨FP.fin a, FP.fin b⟩ (FP.fin x) =
        env.betaReg (FP.fin a / FP.fin 2) (FP.fin b / FP.fin 2)
          (FP.fin (a * x / (a * x + b))) := by
    intro x hd
    have hcond : (FP.beq (FP.fin a) FP.inf || FP.beq (FP.fin b) FP.inf ||
        (FP.fin x).isInfinite) = false := rfl
    have harg : FP.fin a * FP.fin x / (FP.fin a * FP.fin x + FP.fin b) =
        FP.fin (a * x / (a * x + b)) := by
      rw [FP.hmul_eq, FP.hadd_eq, FP.hdiv_eq]
      show FP.div (FP.fin (a * x)) (FP.fin (a * x + b)) = _
      simp [FP.div, ne_of_gt hd]
    rw [FisherSnedecor.cdf, hcond, harg]
    simp
  have t1 : FP.le (FP.fin 0) (FP.fin (a * x1 / (a * x1 + b))) = true := by
    simp only [FP.le, decide_eq_true_eq]
    exact div_nonneg (mul_nonneg ha.le hx1) d1.le
  have t2 : FP.le (FP.fin (a * x1 / (a * x1 + b)))
      (FP.fin (a * x2 / (a * x2 + b))) = true := by
    simp only [FP.le, decide_eq_true_eq]
    rw [div_le_div_iff₀ d1 d2]
    nlinarith [mul_pos ha hb]
  have t3 : FP.le (FP.fin (a * x2 / (a * x2 + b))) (FP.fin 1) = true := by
    simp only [FP.le, decide_eq_true_eq]
    rw [div_le_one d2]
    linarith
  constructor
  · rw [hc x1 d1, hc x2 d2]
    exact hmono _ _ _ _ t1 t2 t3
  · show FisherSnedecor.cdf env ⟨FP.fin a, FP.fin b⟩ (FP.fin 0) = FP.fin 0
    rw [hc 0 d0, show a * 0 / (a * 0 + b) = (0:ℚ) by simp, hzero]

theorem fisherSnedecor_cdf_monotone_amended_witness :
    (0:ℚ) < 1 ∧ (0:ℚ) ≤ 0 ∧
    FP.le (FisherSnedecor.cdf testEnv ⟨FP.fin 1, FP.fin 1⟩ (FP.fin 0))
      (FisherSnedecor.cdf testEnv ⟨FP.fin 1, FP.fin 1⟩ (FP.fin 1)) = true ∧
    FisherSnedecor.cdf testEnv ⟨FP.fin 1, FP.fin 1⟩
      (FisherSnedecor.min ⟨FP.fin 1, FP.fin 1⟩) = FP.fin 0 :=
  ⟨by decide, by decide,
    (fisherSnedecor_cdf_monotone_amended testEnv
      (fun _ _ x y _ h _ => h) (fun _ _ => rfl) 1 1 0 1 (by decide)
      (by decide) (by decide) (by decide)).1,
    (fisherSnedecor_cdf_monotone_amended testEnv
      (fun _ _ x y _ h _ => h) (fun _ _ => rfl) 1 1 0 1 (by decide)
      (by decide) (by decide) (by decide)).2⟩

theorem fisherSnedecor_ln_pdf_via_pdf_witness :
    FisherSnedecor.isValid ⟨FP.fin 1, FP.fin 1⟩ = true ∧
    FisherSnedecor.lnPdf testEnv ⟨FP.fin 1, FP.fin 1⟩ (FP.fin 1) =
      testEnv.ln (FisherSnedecor.pdf testEnv ⟨FP.fin 1, FP.fin 1⟩ (FP.fin 1)) :=
  ⟨by decide,
    fisherSnedecor_ln_pdf_via_pdf testEnv ⟨FP.fin 1, FP.fin 1⟩ (FP.fin 1)
      (by decide)⟩

end
